import Mathlib

/-!
Verification of the anime character detector bot (`anime-bot.js`).

The repository bundles a transport bootstrap file and a plugin containing two
classes, `AnimeCharacterBot` (text pipeline) and `WhatsAppAnimeBot`
(command/session state machine).  Two revisions of the plugin file are present;
the definitions below embed the later revision (the one with
`activationTimestamp`, message-ordering gates and rate-limit retry), which is
the revision the specification describes.  Where the revisions differ only in
tuned constants (the adaptive delay) both are embedded.

Modelling conventions:
  * strings are Lean `String`s, manipulated through their `List Char` data,
    mirroring the character-wise JavaScript string operations used by the code;
  * JavaScript numbers are `Int` (message timestamps, delays) or `ℚ`
    (fractional seconds from `Date.now() / 1000`, confidence scores);
  * the ambient random source (`Math.random()`) is passed in explicitly as
    the concrete draws the code makes from it;
  * external I/O (HTTP lookups, the group directory, the wall clock) is an
    explicit environment argument;
  * a JS string that can be `undefined` is modelled as `""` exactly where the
    code itself treats the two identically (it only ever tests truthiness).
-/

/-! ## Text Normalizer (`AnimeCharacterBot.normalizeArabicText`) -/

/-- `.replace(/[أإآا]/g, 'ا')` : hamza/madda alef variants collapse to bare alef. -/
def replaceAlef (c : Char) : Char :=
  if c = 'أ' ∨ c = 'إ' ∨ c = 'آ' ∨ c = 'ا' then 'ا' else c

/-- `.replace(/[ىي]/g, 'ي')` : alef maksura collapses to yeh. -/
def replaceYeh (c : Char) : Char :=
  if c = 'ى' ∨ c = 'ي' then 'ي' else c

/-- `.replace(/[ةه]/g, 'ه')` : teh marbuta collapses to heh. -/
def replaceHeh (c : Char) : Char :=
  if c = 'ة' ∨ c = 'ه' then 'ه' else c

/-- `.replace(/[ؤو]/g, 'و')` : hamza-on-waw collapses to waw. -/
def replaceWaw (c : Char) : Char :=
  if c = 'ؤ' ∨ c = 'و' then 'و' else c

/-- `.replace(/[ئء]/g, 'ء')` : hamza-on-yeh collapses to hamza. -/
def replaceHamza (c : Char) : Char :=
  if c = 'ئ' ∨ c = 'ء' then 'ء' else c

/-- `.replace(/[كک]/g, 'ك')` : Farsi kaf collapses to Arabic kaf. -/
def replaceKaf (c : Char) : Char :=
  if c = 'ك' ∨ c = 'ک' then 'ك' else c

/-- `.toLowerCase()` restricted to the ASCII range.  The JavaScript method uses
the full Unicode lowercase table, but every character class touched by the
surrounding replaces is Arabic, which has no case, so on the alphabet the
program manipulates the ASCII table is the exact behaviour. -/
def lowerChar (c : Char) : Char :=
  if c = 'A' then 'a' else if c = 'B' then 'b' else if c = 'C' then 'c'
  else if c = 'D' then 'd' else if c = 'E' then 'e' else if c = 'F' then 'f'
  else if c = 'G' then 'g' else if c = 'H' then 'h' else if c = 'I' then 'i'
  else if c = 'J' then 'j' else if c = 'K' then 'k' else if c = 'L' then 'l'
  else if c = 'M' then 'm' else if c = 'N' then 'n' else if c = 'O' then 'o'
  else if c = 'P' then 'p' else if c = 'Q' then 'q' else if c = 'R' then 'r'
  else if c = 'S' then 's' else if c = 'T' then 't' else if c = 'U' then 'u'
  else if c = 'V' then 'v' else if c = 'W' then 'w' else if c = 'X' then 'x'
  else if c = 'Y' then 'y' else if c = 'Z' then 'z' else c

/-- The chained character-wise replaces of `normalizeArabicText`, in source
order, on the character list of the string. -/
def normalizeChars (l : List Char) : List Char :=
  ((((((l.map replaceAlef).map replaceYeh).map replaceHeh).map
      replaceWaw).map replaceHamza).map replaceKaf).map lowerChar

/-- `normalizeArabicText(text)`: six chained single-character-class regex
replaces followed by `toLowerCase()`. -/
def normalizeArabicText (s : String) : String :=
  String.mk (normalizeChars s.data)

/-- The composite per-character action of `normalizeArabicText`. -/
def normChar (c : Char) : Char :=
  lowerChar (replaceKaf (replaceHamza (replaceWaw (replaceHeh (replaceYeh (replaceAlef c))))))

theorem normalizeChars_nil : normalizeChars [] = [] := rfl

theorem normalizeChars_cons (c : Char) (t : List Char) :
    normalizeChars (c :: t) = normChar c :: normalizeChars t := by
  simp only [normalizeChars, List.map_cons]
  rfl

theorem normChar_idem (c : Char) : normChar (normChar c) = normChar c := by
  by_cases h1 : c = 'أ' ∨ c = 'إ' ∨ c = 'آ' ∨ c = 'ا'
  · rcases h1 with h | h | h | h <;> subst h <;> decide
  by_cases h2 : c = 'ى' ∨ c = 'ي'
  · rcases h2 with h | h <;> subst h <;> decide
  by_cases h3 : c = 'ة' ∨ c = 'ه'
  · rcases h3 with h | h <;> subst h <;> decide
  by_cases h4 : c = 'ؤ' ∨ c = 'و'
  · rcases h4 with h | h <;> subst h <;> decide
  by_cases h5 : c = 'ئ' ∨ c = 'ء'
  · rcases h5 with h | h <;> subst h <;> decide
  by_cases h6 : c = 'ك' ∨ c = 'ک'
  · rcases h6 with h | h <;> subst h <;> decide
  by_cases hA : c = 'A'; · subst hA; decide
  by_cases hB : c = 'B'; · subst hB; decide
  by_cases hC : c = 'C'; · subst hC; decide
  by_cases hD : c = 'D'; · subst hD; decide
  by_cases hE : c = 'E'; · subst hE; decide
  by_cases hF : c = 'F'; · subst hF; decide
  by_cases hG : c = 'G'; · subst hG; decide
  by_cases hH : c = 'H'; · subst hH; decide
  by_cases hI : c = 'I'; · subst hI; decide
  by_cases hJ : c = 'J'; · subst hJ; decide
  by_cases hK : c = 'K'; · subst hK; decide
  by_cases hL : c = 'L'; · subst hL; decide
  by_cases hM : c = 'M'; · subst hM; decide
  by_cases hN : c = 'N'; · subst hN; decide
  by_cases hO : c = 'O'; · subst hO; decide
  by_cases hP : c = 'P'; · subst hP; decide
  by_cases hQ : c = 'Q'; · subst hQ; decide
  by_cases hR : c = 'R'; · subst hR; decide
  by_cases hS : c = 'S'; · subst hS; decide
  by_cases hT : c = 'T'; · subst hT; decide
  by_cases hU : c = 'U'; · subst hU; decide
  by_cases hV : c = 'V'; · subst hV; decide
  by_cases hW : c = 'W'; · subst hW; decide
  by_cases hX : c = 'X'; · subst hX; decide
  by_cases hY : c = 'Y'; · subst hY; decide
  by_cases hZ : c = 'Z'; · subst hZ; decide
  have e1 : replaceAlef c = c := if_neg h1
  have e2 : replaceYeh c = c := if_neg h2
  have e3 : replaceHeh c = c := if_neg h3
  have e4 : replaceWaw c = c := if_neg h4
  have e5 : replaceHamza c = c := if_neg h5
  have e6 : replaceKaf c = c := if_neg h6
  have eL : lowerChar c = c := by
    simp only [lowerChar]
    rw [if_neg hA, if_neg hB, if_neg hC, if_neg hD, if_neg hE, if_neg hF,
        if_neg hG, if_neg hH, if_neg hI, if_neg hJ, if_neg hK, if_neg hL,
        if_neg hM, if_neg hN, if_neg hO, if_neg hP, if_neg hQ, if_neg hR,
        if_neg hS, if_neg hT, if_neg hU, if_neg hV, if_neg hW, if_neg hX,
        if_neg hY, if_neg hZ]
  have hfix : normChar c = c := by
    simp only [normChar, e1, e2, e3, e4, e5, e6, eL]
  rw [hfix, hfix]

theorem normalizeChars_idem (l : List Char) :
    normalizeChars (normalizeChars l) = normalizeChars l := by
  induction l with
  | nil => rfl
  | cons c t ih =>
    rw [normalizeChars_cons, normalizeChars_cons, normChar_idem, ih]

/-- C10: `normalizeArabicText` is idempotent: applying it twice gives the same
string as applying it once, for every input string.  As a Lean function the
embedding is pure, total and deterministic by construction — there is no
failure mode. -/
theorem normalizeArabicText_idempotent (s : String) :
    normalizeArabicText (normalizeArabicText s) = normalizeArabicText s := by
  unfold normalizeArabicText
  exact congrArg String.mk (normalizeChars_idem s.data)

/-! ## Adaptive Timing (`AnimeCharacterBot.getAdaptiveDelay`)

`randomVariation = Math.floor(Math.random() * 405)` (later revision; `500` in
the earlier one) is passed in as the explicit draw `r`; the bound on the draw
plays no role in the claimed properties, so `r` ranges over all of `Nat`. -/

/-- `getAdaptiveDelay(characterCount, isMistake, mistakeType)` of the later
plugin revision (`baseDelay = 648`, `perCharacterDelay = 648`). -/
def getAdaptiveDelay (characterCount : Int) (isMistake : Bool)
    (mistakeType : Option String) (r : Nat) : Int :=
  let calculatedDelay := 648 + (characterCount - 1) * 648 + (r : Int)
  if isMistake = true ∧ mistakeType = some "delay_mistake" then
    calculatedDelay * 3
  else calculatedDelay

/-- `getAdaptiveDelay` of the earlier plugin revision
(`baseDelay = 800`, `perCharacterDelay = 800`). -/
def getAdaptiveDelayV1 (characterCount : Int) (isMistake : Bool)
    (mistakeType : Option String) (r : Nat) : Int :=
  let calculatedDelay := 800 + (characterCount - 1) * 800 + (r : Int)
  if isMistake = true ∧ mistakeType = some "delay_mistake" then
    calculatedDelay * 3
  else calculatedDelay

/-- C7: for a fixed random draw and fixed mistake state the adaptive delay is
strictly increasing in the token count, and for the same token count and draw
the delayed-mistake delay is exactly three times the non-mistake delay — in
both revisions of the constants. -/
theorem getAdaptiveDelay_monotone_and_triple :
    (∀ (c₁ c₂ : Int) (mi : Bool) (mt : Option String) (r : Nat), c₁ < c₂ →
        getAdaptiveDelay c₁ mi mt r < getAdaptiveDelay c₂ mi mt r) ∧
    (∀ (c : Int) (r : Nat),
        getAdaptiveDelay c true (some "delay_mistake") r =
          3 * getAdaptiveDelay c false none r) ∧
    (∀ (c₁ c₂ : Int) (mi : Bool) (mt : Option String) (r : Nat), c₁ < c₂ →
        getAdaptiveDelayV1 c₁ mi mt r < getAdaptiveDelayV1 c₂ mi mt r) ∧
    (∀ (c : Int) (r : Nat),
        getAdaptiveDelayV1 c true (some "delay_mistake") r =
          3 * getAdaptiveDelayV1 c false none r) := by
  refine ⟨?_, ?_, ?_, ?_⟩
  · intro c₁ c₂ mi mt r h
    have hm : (c₁ - 1) * 648 < (c₂ - 1) * 648 := by nlinarith
    simp only [getAdaptiveDelay]
    split_ifs <;> nlinarith
  · intro c r
    simp only [getAdaptiveDelay]
    norm_num
    ring
  · intro c₁ c₂ mi mt r h
    have hm : (c₁ - 1) * 800 < (c₂ - 1) * 800 := by nlinarith
    simp only [getAdaptiveDelayV1]
    split_ifs <;> nlinarith
  · intro c r
    simp only [getAdaptiveDelayV1]
    norm_num
    ring

/-- Concrete instance of C7: two tokens take strictly longer than one, and the
delayed-mistake delay at one token with draw zero is exactly three times the
plain one. -/
theorem getAdaptiveDelay_monotone_and_triple_witness :
    getAdaptiveDelay 1 false none 0 < getAdaptiveDelay 2 false none 0 ∧
    getAdaptiveDelay 1 true (some "delay_mistake") 0 =
      3 * getAdaptiveDelay 1 false none 0 ∧
    getAdaptiveDelayV1 1 false none 0 < getAdaptiveDelayV1 2 false none 0 ∧
    getAdaptiveDelayV1 1 true (some "delay_mistake") 0 =
      3 * getAdaptiveDelayV1 1 false none 0 :=
  ⟨getAdaptiveDelay_monotone_and_triple.1 1 2 false none 0 (by norm_num),
   getAdaptiveDelay_monotone_and_triple.2.1 1 0,
   getAdaptiveDelay_monotone_and_triple.2.2.1 1 2 false none 0 (by norm_num),
   getAdaptiveDelay_monotone_and_triple.2.2.2 1 0⟩

/-! ## Mistake Engine (`AnimeCharacterBot.generateMistakeResponse`,
`AnimeCharacterBot.formatResponse`)

The engine draws from `Math.random()` several times; those draws are the
fields of `MistakeRand`.  In the source every index draw is
`Math.floor(Math.random() * n)` and therefore lies below the relevant bound;
the embedding totalises the out-of-range cases by leaving the data unchanged
(`List.getD` / a `match` on `l[i]?`). -/

/-- The substitution alphabet of the typo branch:
`['ا', 'و', 'ي', 'ه', 'ة', 'ء']`. -/
def typoChars : List Char := ['ا', 'و', 'ي', 'ه', 'ة', 'ء']

/-- One concrete run of the random draws taken by `generateMistakeResponse`.
`shuffle` stands for `[...arr].sort(() => Math.random() - 0.5)`, whose output
order is unspecified. -/
structure MistakeRand where
  isTypo : Bool
  typoIndex : Nat
  typoPos : Nat
  typoCharIdx : Nat
  otherKindIdx : Nat
  shuffle : List String → List String

/-- The value returned by `generateMistakeResponse`. -/
structure MistakeResult where
  characters : List String
  mistakeType : String
  isMistake : Bool
deriving DecidableEq

/-- `char.slice(0, typoPos) + typoChar + char.slice(typoPos + 1)`. -/
def applyTypo (c : String) (pos k : Nat) : String :=
  String.mk (c.data.take pos ++ [typoChars.getD k 'ا'] ++ c.data.drop (pos + 1))

/-- `generateMistakeResponse(originalCharacters)`.  With the 70% draw a typo is
made in one uniformly chosen token, but only if that token is longer than two
characters; otherwise one of `partial_response` / `reorder` / `delay_mistake`
is chosen uniformly.  `keepCount` is `Math.floor(length * 0.7)` computed in
binary floating point, embedded here as exact `7 * length / 10` (the possible
off-by-one of the float product affects only how many tokens a partial
response keeps, which no claim depends on).  Note the returned `mistakeType`
field is `'typo'` or `'other'`, never the internal kind string. -/
def generateMistakeResponse (originalCharacters : List String) (r : MistakeRand) :
    MistakeResult :=
  if r.isTypo then
    match originalCharacters[r.typoIndex]? with
    | some ch =>
      if ch.length > 2 then
        { characters :=
            originalCharacters.set r.typoIndex (applyTypo ch r.typoPos r.typoCharIdx),
          mistakeType := "typo", isMistake := true }
      else
        { characters := originalCharacters, mistakeType := "typo", isMistake := true }
    | none =>
      { characters := originalCharacters, mistakeType := "typo", isMistake := true }
  else
    let kind := (["partial_response", "reorder", "delay_mistake"]).getD r.otherKindIdx ""
    let characters :=
      if kind = "partial_response" then
        (r.shuffle originalCharacters).take (max 1 (7 * originalCharacters.length / 10))
      else if kind = "reorder" then
        r.shuffle originalCharacters
      else originalCharacters
    { characters := characters, mistakeType := "other", isMistake := true }

/-- `originalCharacters.join(' ')` (also `generateCorrectionMessage`). -/
def joinSpace (l : List String) : String :=
  String.intercalate " " l

/-- A word extracted by `extractPotentialCharacters`:
`{input, indices: [index], confidence: 1.0, isCharacter: true}`. -/
structure PotChar where
  input : String
  indices : List Nat
  confidence : ℚ
  isCharacter : Bool
deriving DecidableEq

/-- The non-null value returned by `processMessage`. -/
structure PResult where
  learnedCharacters : List PotChar
  tournamentMode : Bool
  originalText : String
deriving DecidableEq

/-- The non-null value returned by `formatResponse`.  `mistakeType` and
`originalCharacters` are absent (`undefined`) on the no-mistake path, hence
the `Option` types. -/
structure ResponseData where
  text : String
  characterCount : Nat
  isMistake : Bool
  mistakeType : Option String
  originalCharacters : Option (List String)
deriving DecidableEq

/-- `formatResponse(result)`.  The 30% `shouldMakeMistake()` draw is the
explicit `mistakeDraw` argument; `result` is the non-null `processMessage`
value (the `!result` guard is discharged by the caller's own null check). -/
def formatResponse (result : PResult) (mistakeDraw : Bool) (mr : MistakeRand) :
    Option ResponseData :=
  if result.learnedCharacters.isEmpty then none
  else
    let characterNames := result.learnedCharacters.map (·.input)
    if mistakeDraw then
      let m := generateMistakeResponse characterNames mr
      some { text := joinSpace m.characters,
             characterCount := m.characters.length,
             isMistake := true,
             mistakeType := some m.mistakeType,
             originalCharacters := some characterNames }
    else
      some { text := joinSpace characterNames,
             characterCount := characterNames.length,
             isMistake := false,
             mistakeType := none,
             originalCharacters := none }

/-- C9: whenever the typo branch of `generateMistakeResponse` is taken, the
output has exactly as many tokens as the input; every token of length at most
two is left unchanged at its position; and if the uniformly chosen token has
length at most two the whole token list is returned unchanged. -/
theorem generateMistakeResponse_typo_preserves (chars : List String)
    (r : MistakeRand) (ht : r.isTypo = true) :
    (generateMistakeResponse chars r).characters.length = chars.length ∧
    (∀ (j : Nat) (c : String), chars[j]? = some c → c.length ≤ 2 →
        (generateMistakeResponse chars r).characters[j]? = some c) ∧
    (∀ c : String, chars[r.typoIndex]? = some c → c.length ≤ 2 →
        (generateMistakeResponse chars r).characters = chars) := by
  simp only [generateMistakeResponse, ht, if_true]
  rcases hg : chars[r.typoIndex]? with _ | ch
  · exact ⟨rfl, fun j c hj _ => hj, fun _ _ _ => rfl⟩
  · by_cases hl : ch.length > 2
    · simp only [hg, hl, if_pos]
      refine ⟨List.length_set .., ?_, ?_⟩
      · intro j c hj hc
        by_cases hij : r.typoIndex = j
        · subst hij
          rw [hg] at hj
          injection hj with h
          subst h
          exact absurd hl (by omega)
        · rw [List.getElem?_set_ne hij]
          exact hj
      · intro c hc hlen
        injection hc with h
        subst h
        exact absurd hl (by omega)
    · simp only [hg, hl, if_neg, if_false]
      exact ⟨by simp, fun j c hj _ => hj, fun _ _ _ => by simp⟩

/-- Concrete instance of C9: a typo draw on `["aa", "bbbb"]` choosing the
second token keeps two tokens and leaves the short first token unchanged;
choosing the short first token leaves everything unchanged. -/
theorem generateMistakeResponse_typo_preserves_witness :
    (generateMistakeResponse ["aa", "bbbb"] ⟨true, 1, 0, 0, 0, id⟩).characters.length = 2 ∧
    (generateMistakeResponse ["aa", "bbbb"] ⟨true, 1, 0, 0, 0, id⟩).characters[0]? = some "aa" ∧
    (generateMistakeResponse ["aa", "bbbb"] ⟨true, 0, 0, 0, 0, id⟩).characters = ["aa", "bbbb"] :=
  ⟨(generateMistakeResponse_typo_preserves ["aa", "bbbb"] ⟨true, 1, 0, 0, 0, id⟩ rfl).1,
   (generateMistakeResponse_typo_preserves ["aa", "bbbb"] ⟨true, 1, 0, 0, 0, id⟩ rfl).2.1
     0 "aa" rfl (by decide),
   (generateMistakeResponse_typo_preserves ["aa", "bbbb"] ⟨true, 0, 0, 0, 0, id⟩ rfl).2.2
     "aa" rfl (by decide)⟩

/-- C8: `generateMistakeResponse` only ever labels its result `'typo'` or
`'other'`, so every mistaken plan from `formatResponse` carries one of those
two labels — never `'delay_mistake'` — and consequently the tripled
delayed-mistake branch of `getAdaptiveDelay` is never taken for a plan
produced by the message pipeline: the delay is always the plain
`base + (count - 1) * perToken + variation` formula. -/
theorem formatResponse_never_delay_mistake :
    (∀ (chars : List String) (r : MistakeRand),
        (generateMistakeResponse chars r).mistakeType = "typo" ∨
        (generateMistakeResponse chars r).mistakeType = "other") ∧
    (∀ (result : PResult) (mi : Bool) (mr : MistakeRand) (rd : ResponseData),
        formatResponse result mi mr = some rd →
        rd.mistakeType ≠ some "delay_mistake" ∧
        ∀ r : Nat, getAdaptiveDelay rd.characterCount rd.isMistake rd.mistakeType r =
          648 + ((rd.characterCount : Int) - 1) * 648 + (r : Int)) := by
  have hgen : ∀ (chars : List String) (r : MistakeRand),
      (generateMistakeResponse chars r).mistakeType = "typo" ∨
      (generateMistakeResponse chars r).mistakeType = "other" := by
    intro chars r
    simp only [generateMistakeResponse]
    split_ifs with ht h1 h2
    · cases hx : chars[r.typoIndex]? with
      | none => exact Or.inl rfl
      | some ch => by_cases hl : ch.length > 2 <;> simp [hx, hl]
    · exact Or.inr rfl
    · exact Or.inr rfl
    · exact Or.inr rfl
  refine ⟨hgen, ?_⟩
  intro result mi mr rd hfmt
  have hmt : rd.mistakeType = none ∨ rd.mistakeType = some "typo" ∨
      rd.mistakeType = some "other" := by
    simp only [formatResponse] at hfmt
    split_ifs at hfmt with he hm
    · rcases hgen (result.learnedCharacters.map (·.input)) mr with h | h
      · injection hfmt with h2; subst h2; simp [h]
      · injection hfmt with h2; subst h2; simp [h]
    · injection hfmt with h2
      subst h2
      simp
  have hne : rd.mistakeType ≠ some "delay_mistake" := by
    rcases hmt with h | h | h <;> simp [h]
  refine ⟨hne, ?_⟩
  intro r
  simp only [getAdaptiveDelay]
  rw [if_neg]
  intro hcon
  exact hne hcon.2

/-- Concrete instance of C8: a concrete mistake draw is labelled `'typo'` or
`'other'`; the concrete plan for a one-token message is not a delayed mistake
and its adaptive delay with draw `0` is the plain formula value. -/
theorem formatResponse_never_delay_mistake_witness :
    ((generateMistakeResponse ["abcd"] ⟨false, 0, 0, 0, 2, id⟩).mistakeType = "typo" ∨
     (generateMistakeResponse ["abcd"] ⟨false, 0, 0, 0, 2, id⟩).mistakeType = "other") ∧
    ResponseData.mistakeType ⟨"abcd", 1, false, none, none⟩ ≠ some "delay_mistake" ∧
    getAdaptiveDelay 1 false none 0 = 648 + ((1 : Int) - 1) * 648 + 0 := by
  have h := formatResponse_never_delay_mistake.2 ⟨[⟨"abcd", [0], 1, true⟩], false, "*abcd*"⟩
      false ⟨false, 0, 0, 0, 2, id⟩ ⟨"abcd", 1, false, none, none⟩ rfl
  exact ⟨formatResponse_never_delay_mistake.1 ["abcd"] ⟨false, 0, 0, 0, 2, id⟩, h.1, h.2 0⟩

/-! ## External lookup (`AnimeCharacterBot.searchSingleAPI`)

The HTTP request/response of one attempt is abstracted as an oracle from the
attempt number to its outcome: either a completed request (carrying the parsed
result or `null` for no match) or a thrown error.  The inter-call minimum
spacing (`lastAPICall` / `minAPIDelay`) only delays the first attempt and does
not affect the returned value or the retry structure. -/

/-- A thrown request error: an optional HTTP status
(`error.response?.status`) and the error message. -/
structure ApiError where
  status : Option Nat
  message : String

/-- A resolver result `{name, confidence, source}`. -/
structure SearchResult where
  name : String
  confidence : ℚ
  source : String
deriving DecidableEq

/-- What one attempt of the `for` loop observes. -/
inductive ApiOutcome where
  | ok (r : Option SearchResult) : ApiOutcome
  | err (e : ApiError) : ApiOutcome

/-- Bool-valued check that `small` occurs as a prefix of `big`. -/
def isPrefixChars : List Char → List Char → Bool
  | [], _ => true
  | _ :: _, [] => false
  | a :: s, b :: t => a = b && isPrefixChars s t

/-- Bool-valued check that `needle` occurs as a substring
(JavaScript `String.prototype.includes`). -/
def containsSub (needle : List Char) : List Char → Bool
  | [] => isPrefixChars needle []
  | c :: t => isPrefixChars needle (c :: t) || containsSub needle t

/-- `error.response?.status === 429 || error.message.includes('rate limit') ||
error.message.includes('too many requests')`. -/
def isRateLimitError (e : ApiError) : Bool :=
  e.status = some 429 || containsSub "rate limit".data e.message.data ||
    containsSub "too many requests".data e.message.data

/-- `this.rateLimitRetries = 3`. -/
def rateLimitRetries : Nat := 3

/-- `this.rateLimitBackoff = 1800`. -/
def rateLimitBackoff : Nat := 1800

/-- The `for (attempt = 1; attempt <= rateLimitRetries; attempt++)` loop of
`searchSingleAPI`, with `fuel` the number of attempts remaining.  Returns the
result together with the list of backoff sleeps performed
(`rateLimitBackoff * 2 ** (attempt - 1)` before each retry). -/
def searchLoop (oracle : Nat → ApiOutcome) (attempt : Nat) :
    Nat → Option SearchResult × List Nat
  | 0 => (none, [])
  | fuel + 1 =>
    match oracle attempt with
    | ApiOutcome.ok r => (r, [])
    | ApiOutcome.err e =>
      if isRateLimitError e then
        let rest := searchLoop oracle (attempt + 1) fuel
        (rest.1, rateLimitBackoff * 2 ^ (attempt - 1) :: rest.2)
      else (none, [])

/-- `searchSingleAPI(apiUrl, characterName)`: up to `rateLimitRetries`
attempts starting at attempt 1. -/
def searchSingleAPI (oracle : Nat → ApiOutcome) : Option SearchResult × List Nat :=
  searchLoop oracle 1 rateLimitRetries

/-- C6: a non-rate-limit failure on the first attempt is not retried and is
immediately no-match with no backoff sleeps; a rate-limit failure is retried
after an exponentially growing backoff (1800, 3600, 7200 ms), and if every
attempt up to the fixed cap of 3 is rate-limited the lookup gives no-match;
a rate-limit failure followed by a completed second attempt returns that
attempt's result after the single 1800 ms backoff. -/
theorem searchSingleAPI_retry_policy :
    (∀ (oracle : Nat → ApiOutcome) (e : ApiError),
        oracle 1 = ApiOutcome.err e → isRateLimitError e = false →
        searchSingleAPI oracle = (none, [])) ∧
    (∀ (oracle : Nat → ApiOutcome) (e₁ e₂ e₃ : ApiError),
        oracle 1 = ApiOutcome.err e₁ → isRateLimitError e₁ = true →
        oracle 2 = ApiOutcome.err e₂ → isRateLimitError e₂ = true →
        oracle 3 = ApiOutcome.err e₃ → isRateLimitError e₃ = true →
        searchSingleAPI oracle = (none, [1800, 3600, 7200])) ∧
    (∀ (oracle : Nat → ApiOutcome) (e : ApiError) (r : Option SearchResult),
        oracle 1 = ApiOutcome.err e → isRateLimitError e = true →
        oracle 2 = ApiOutcome.ok r →
        searchSingleAPI oracle = (r, [1800])) := by
  refine ⟨?_, ?_, ?_⟩
  · intro oracle e h1 hr
    simp [searchSingleAPI, rateLimitRetries, searchLoop, h1, hr]
  · intro oracle e₁ e₂ e₃ h1 hr1 h2 hr2 h3 hr3
    simp [searchSingleAPI, rateLimitRetries, searchLoop, h1, hr1, h2, hr2, h3, hr3,
      rateLimitBackoff]
  · intro oracle e r h1 hr h2
    simp [searchSingleAPI, rateLimitRetries, searchLoop, h1, hr, h2, rateLimitBackoff]

/-- Concrete instance of C6: a plain 500 error gives immediate no-match; three
429 errors give no-match after backoffs 1800, 3600, 7200; a 429 followed by a
found result returns it after one backoff. -/
theorem searchSingleAPI_retry_policy_witness :
    searchSingleAPI (fun _ => ApiOutcome.err ⟨some 500, "boom"⟩) = (none, []) ∧
    searchSingleAPI (fun _ => ApiOutcome.err ⟨some 429, ""⟩) =
      (none, [1800, 3600, 7200]) ∧
    searchSingleAPI (fun a => if a = 1 then ApiOutcome.err ⟨some 429, ""⟩
        else ApiOutcome.ok (some ⟨"Goku", 9/10, "AniList"⟩)) =
      (some ⟨"Goku", 9/10, "AniList"⟩, [1800]) :=
  ⟨searchSingleAPI_retry_policy.1 _ ⟨some 500, "boom"⟩ rfl (by decide),
   searchSingleAPI_retry_policy.2.1 _ ⟨some 429, ""⟩ ⟨some 429, ""⟩ ⟨some 429, ""⟩
     rfl (by decide) rfl (by decide) rfl (by decide),
   searchSingleAPI_retry_policy.2.2 _ ⟨some 429, ""⟩ (some ⟨"Goku", 9/10, "AniList"⟩)
     rfl (by decide) rfl⟩

/-! ## Name Resolver (`AnimeCharacterBot.searchCharacterInDatabases`)

The two mapping `Map`s are modelled as association lists (unique keys in a JS
`Map`; lookup returns the value of the matching key), and the already-awaited
`Promise.all` array of per-service answers is the `apiResults` argument, in
`this.animeAPIs` order. -/

/-- `Map.prototype.get` on an association list (`none` when `has` is false). -/
def mapLookup {β : Type} : List (String × β) → String → Option β
  | [], _ => none
  | (k, v) :: t, n => if k = n then some v else mapLookup t n

/-- `validResults.reduce((best, current) =>
current.confidence > best.confidence ? current : best)`. -/
def reduceBest (h : SearchResult) (t : List SearchResult) : SearchResult :=
  t.foldl (fun best current =>
    if best.confidence < current.confidence then current else best) h

/-- `searchCharacterInDatabases(characterName)`: static mapping first, learned
mapping second, otherwise the highest-confidence non-null service answer,
`null` when there is none. -/
def searchCharacterInDatabases (statics : List (String × String))
    (learned : List (String × SearchResult)) (characterName : String)
    (apiResults : List (Option SearchResult)) : Option SearchResult :=
  let normalizedName := normalizeArabicText characterName
  match mapLookup statics normalizedName with
  | some v => some ⟨v, 1, "Local Mapping"⟩
  | none =>
    match mapLookup learned normalizedName with
    | some r => some { r with source := "Learned Characters" }
    | none =>
      let validResults := apiResults.filterMap id
      match validResults with
      | [] => none
      | h :: t => some (reduceBest h t)

/-- The `reduce` over the non-null results returns the first element attaining
the maximal confidence: it occurs in the list, every element before it has
strictly smaller confidence, and nothing in the list beats it. -/
theorem reduceBest_first_max (t : List SearchResult) (h : SearchResult) :
    ∃ i : Nat, (h :: t)[i]? = some (reduceBest h t) ∧
      (∀ (j : Nat) (y : SearchResult), j < i → (h :: t)[j]? = some y →
        y.confidence < (reduceBest h t).confidence) ∧
      (∀ y ∈ h :: t, y.confidence ≤ (reduceBest h t).confidence) := by
  induction t generalizing h with
  | nil =>
    refine ⟨0, rfl, ?_, ?_⟩
    · intro j y hj _
      omega
    · intro y hy
      rcases List.mem_singleton.mp hy with rfl
      exact le_refl _
  | cons x xs ih =>
    have hstep : reduceBest h (x :: xs) =
        reduceBest (if h.confidence < x.confidence then x else h) xs := rfl
    by_cases hx : h.confidence < x.confidence
    · rw [hstep, if_pos hx]
      obtain ⟨i, hi, hpre, hmax⟩ := ih x
      refine ⟨i + 1, ?_, ?_, ?_⟩
      · rw [List.getElem?_cons_succ]
        exact hi
      · intro j y hj hy
        cases j with
        | zero =>
          rw [List.getElem?_cons_zero] at hy
          injection hy with hy2
          subst hy2
          exact lt_of_lt_of_le hx (hmax x (List.mem_cons_self x xs))
        | succ j2 =>
          rw [List.getElem?_cons_succ] at hy
          exact hpre j2 y (by omega) hy
      · intro y hy
        rcases List.mem_cons.mp hy with rfl | hy2
        · exact le_of_lt (lt_of_lt_of_le hx (hmax x (List.mem_cons_self x xs)))
        · exact hmax y hy2
    · rw [hstep, if_neg hx]
      have hxh : x.confidence ≤ h.confidence := le_of_not_lt hx
      obtain ⟨i, hi, hpre, hmax⟩ := ih h
      cases i with
      | zero =>
        rw [List.getElem?_cons_zero] at hi
        injection hi with hbest
        refine ⟨0, ?_, ?_, ?_⟩
        · rw [List.getElem?_cons_zero]
          exact congrArg some hbest
        · intro j y hj _
          omega
        · intro y hy
          have hh : h.confidence ≤ (reduceBest h xs).confidence :=
            le_of_eq (congrArg SearchResult.confidence hbest)
          rcases List.mem_cons.mp hy with rfl | hy2
          · exact hh
          rcases List.mem_cons.mp hy2 with rfl | hy3
          · exact le_trans hxh hh
          · exact hmax y (List.mem_cons_of_mem h hy3)
      | succ k =>
        rw [List.getElem?_cons_succ] at hi
        have hhlt : h.confidence < (reduceBest h xs).confidence :=
          hpre 0 h (Nat.succ_pos k) List.getElem?_cons_zero
        refine ⟨k + 2, ?_, ?_, ?_⟩
        · rw [List.getElem?_cons_succ, List.getElem?_cons_succ]
          exact hi
        · intro j y hj hy
          cases j with
          | zero =>
            rw [List.getElem?_cons_zero] at hy
            injection hy with e
            subst e
            exact hhlt
          | succ j2 =>
            cases j2 with
            | zero =>
              rw [List.getElem?_cons_succ, List.getElem?_cons_zero] at hy
              injection hy with e
              subst e
              exact lt_of_le_of_lt hxh hhlt
            | succ j3 =>
              rw [List.getElem?_cons_succ, List.getElem?_cons_succ] at hy
              refine hpre (j3 + 1) y (by omega) ?_
              rw [List.getElem?_cons_succ]
              exact hy
        · intro y hy
          rcases List.mem_cons.mp hy with rfl | hy2
          · exact le_of_lt hhlt
          rcases List.mem_cons.mp hy2 with rfl | hy3
          · exact le_of_lt (lt_of_le_of_lt hxh hhlt)
          · exact hmax y (List.mem_cons_of_mem h hy3)

/-- C5: the resolver's first-hit-wins priority.  A static-mapping hit on the
normalized key returns its display name with confidence 1 and source
`'Local Mapping'`; otherwise a learned-mapping hit returns the stored entry
with source `'Learned Characters'`; otherwise the single highest-confidence
non-null service answer wins, with ties broken in favour of the earlier answer
in iteration order; and with no hit anywhere the resolver returns null. -/
theorem searchCharacterInDatabases_priority (statics : List (String × String))
    (learned : List (String × SearchResult)) (characterName : String)
    (apiResults : List (Option SearchResult)) :
    (∀ v, mapLookup statics (normalizeArabicText characterName) = some v →
        searchCharacterInDatabases statics learned characterName apiResults =
          some ⟨v, 1, "Local Mapping"⟩) ∧
    (mapLookup statics (normalizeArabicText characterName) = none →
      ∀ r, mapLookup learned (normalizeArabicText characterName) = some r →
        searchCharacterInDatabases statics learned characterName apiResults =
          some { r with source := "Learned Characters" }) ∧
    (mapLookup statics (normalizeArabicText characterName) = none →
      mapLookup learned (normalizeArabicText characterName) = none →
      apiResults.filterMap id = [] →
        searchCharacterInDatabases statics learned characterName apiResults = none) ∧
    (mapLookup statics (normalizeArabicText characterName) = none →
      mapLookup learned (normalizeArabicText characterName) = none →
      ∀ b, searchCharacterInDatabases statics learned characterName apiResults = some b →
        ∃ i : Nat, (apiResults.filterMap id)[i]? = some b ∧
          (∀ (j : Nat) (y : SearchResult), j < i →
            (apiResults.filterMap id)[j]? = some y →
            y.confidence < b.confidence) ∧
          (∀ y ∈ apiResults.filterMap id, y.confidence ≤ b.confidence)) := by
  refine ⟨?_, ?_, ?_, ?_⟩
  · intro v hv
    simp [searchCharacterInDatabases, hv]
  · intro hs r hr
    simp [searchCharacterInDatabases, hs, hr]
  · intro hs hr hval
    simp [searchCharacterInDatabases, hs, hr, hval]
  · intro hs hr b hb
    simp only [searchCharacterInDatabases, hs, hr] at hb
    rcases hval : apiResults.filterMap id with _ | ⟨h, t⟩
    · rw [hval] at hb
      exact absurd hb (by simp)
    · rw [hval] at hb
      simp only [Option.some.injEq] at hb
      subst hb
      exact reduceBest_first_max t h

/-- Concrete instance of C5: a static hit wins with confidence 1; a learned
hit is re-sourced; all-null answers give null; and of two non-null answers the
earlier, strictly more confident one is chosen. -/
theorem searchCharacterInDatabases_priority_witness :
    searchCharacterInDatabases [("goku", "Goku")] [] "Goku" [] =
      some ⟨"Goku", 1, "Local Mapping"⟩ ∧
    searchCharacterInDatabases [] [("vegeta", ⟨"Vegeta", 4/5, "old"⟩)] "Vegeta" [] =
      some ⟨"Vegeta", 4/5, "Learned Characters"⟩ ∧
    searchCharacterInDatabases [] [] "nobody" [none, none, none] = none ∧
    (∃ i : Nat, ([some ⟨"A", 1, "AniList"⟩, some ⟨"B", 0, "api"⟩].filterMap
          (id : Option SearchResult → Option SearchResult))[i]? =
        some ⟨"A", 1, "AniList"⟩ ∧
      (∀ (j : Nat) (y : SearchResult), j < i →
        ([some ⟨"A", 1, "AniList"⟩, some ⟨"B", 0, "api"⟩].filterMap
          (id : Option SearchResult → Option SearchResult))[j]? = some y →
        y.confidence < (SearchResult.mk "A" 1 "AniList").confidence) ∧
      (∀ y ∈ [some ⟨"A", 1, "AniList"⟩, some ⟨"B", 0, "api"⟩].filterMap
          (id : Option SearchResult → Option SearchResult),
        y.confidence ≤ (SearchResult.mk "A" 1 "AniList").confidence)) :=
  ⟨(searchCharacterInDatabases_priority [("goku", "Goku")] [] "Goku" []).1 "Goku" rfl,
   (searchCharacterInDatabases_priority [] [("vegeta", ⟨"Vegeta", 4/5, "old"⟩)]
      "Vegeta" []).2.1 rfl ⟨"Vegeta", 4/5, "old"⟩ rfl,
   (searchCharacterInDatabases_priority [] [] "nobody" [none, none, none]).2.2.1
      rfl rfl rfl,
   (searchCharacterInDatabases_priority [] [] "AB"
      [some ⟨"A", 1, "AniList"⟩, some ⟨"B", 0, "api"⟩]).2.2.2
      rfl rfl ⟨"A", 1, "AniList"⟩ (by decide)⟩

/-! ## Token Extractor (`AnimeCharacterBot.extractContentBetweenAsterisks`,
`AnimeCharacterBot.extractPotentialCharacters`, `isTournamentMessage`) -/

/-- The JavaScript `\s` class (and the set trimmed by `String.prototype.trim`):
ASCII whitespace, NBSP, the Unicode space separators, line/paragraph
separators and the BOM. -/
def jsWhitespace : List Char :=
  [' ', '\t', '\n', '\x0b', '\x0c', '\r', ' ', ' ', ' ',
   ' ', ' ', ' ', ' ', ' ', ' ', ' ',
   ' ', ' ', ' ', ' ', ' ', ' ', ' ',
   '　', '﻿']

def isJsSpace (c : Char) : Bool := jsWhitespace.contains c

/-- `String.prototype.trim` on the character list. -/
def jsTrimChars (l : List Char) : List Char :=
  ((l.dropWhile isJsSpace).reverse.dropWhile isJsSpace).reverse

/-- `msgContent.trim()`. -/
def jsTrim (s : String) : String :=
  String.mk (jsTrimChars s.data)

/-- One left-to-right pass implementing `/\*([^*]+)\*/g`.  The first argument
is `none` outside a span and `some acc` (reversed content so far) after an
opening asterisk.  A closing asterisk over non-empty content emits the span
and is consumed; an asterisk met over empty content means the previous
asterisk could not match and this one is retried as the opener; a span left
open at the end of input matches nothing. -/
def starScan : Option (List Char) → List Char → List (List Char)
  | _, [] => []
  | none, c :: t => if c = '*' then starScan (some []) t else starScan none t
  | some acc, c :: t =>
    if c = '*' then
      if acc.isEmpty then starScan (some []) t
      else acc.reverse :: starScan none t
    else starScan (some (c :: acc)) t

/-- The matches of `text.match(/\*([^*]+)\*/g)` (contents only, the
surrounding asterisks already stripped as `m.slice(1, -1)` does). -/
def starMatches (l : List Char) : List (List Char) :=
  starScan none l

/-- The six emoji / symbol block removals applied before the keep-filter. -/
def isEmojiStripped (c : Char) : Bool :=
  (0x1F600 ≤ c.toNat && c.toNat ≤ 0x1F64F) ||
  (0x1F300 ≤ c.toNat && c.toNat ≤ 0x1F5FF) ||
  (0x1F680 ≤ c.toNat && c.toNat ≤ 0x1F6FF) ||
  (0x1F1E0 ≤ c.toNat && c.toNat ≤ 0x1F1FF) ||
  (0x2600 ≤ c.toNat && c.toNat ≤ 0x26FF) ||
  (0x2700 ≤ c.toNat && c.toNat ≤ 0x27BF)

/-- The explicit separator characters of the splitting classes:
slash, hyphen, pipe, Arabic and ASCII comma, Arabic and ASCII semicolon,
colon. -/
def sepChars : List Char := ['/', '-', '|', '،', ',', '؛', ';', ':']

/-- The keep-filter
`[^؀-ۿݐ-ݿࢠ-ࣿﭐ-﷿ﹰ-﻿a-zA-Z\s\/\-\|،,؛;:]`
of the later revision: Arabic blocks, ASCII letters, whitespace and the
separator set survive, everything else is removed. -/
def isKeptChar (c : Char) : Bool :=
  (0x0600 ≤ c.toNat && c.toNat ≤ 0x06FF) ||
  (0x0750 ≤ c.toNat && c.toNat ≤ 0x077F) ||
  (0x08A0 ≤ c.toNat && c.toNat ≤ 0x08FF) ||
  (0xFB50 ≤ c.toNat && c.toNat ≤ 0xFDFF) ||
  (0xFE70 ≤ c.toNat && c.toNat ≤ 0xFEFF) ||
  ('a' ≤ c && c ≤ 'z') || ('A' ≤ c && c ≤ 'Z') ||
  isJsSpace c || sepChars.contains c

/-- `.replace(/\s+/g, ' ')`: collapse every whitespace run to one space. -/
def collapseSpaces : Bool → List Char → List Char
  | _, [] => []
  | inRun, c :: t =>
    if isJsSpace c then
      if inRun then collapseSpaces true t else ' ' :: collapseSpaces true t
    else c :: collapseSpaces false t

/-- `['*a b*', '*c*'].map(m => m.slice(1, -1)).join(' ')`. -/
def joinMatches : List (List Char) → List Char
  | [] => []
  | [m] => m
  | m :: m2 :: rest => m ++ ' ' :: joinMatches (m2 :: rest)

/-- `extractContentBetweenAsterisks(text)`: no match gives `''`; otherwise the
matched spans joined by spaces, emoji blocks removed, non-allow-list
characters removed, whitespace runs collapsed, trimmed. -/
def extractContentBetweenAsterisks (s : String) : String :=
  match starMatches s.data with
  | [] => ""
  | m :: ms =>
    let content := joinMatches (m :: ms)
    let cleaned := (content.filter (fun c => !isEmojiStripped c)).filter isKeptChar
    String.mk (jsTrimChars (collapseSpaces false cleaned))

/-- JavaScript `String.prototype.split` on a one-or-more character-class run:
pieces between maximal separator runs, keeping empty leading/trailing pieces
(as `split` does). -/
def jsSplitRuns (p : Char → Bool) : Bool → List Char → List Char → List (List Char)
  | _, [], acc => [acc.reverse]
  | inSep, c :: t, acc =>
    if p c then
      if inSep then jsSplitRuns p true t acc
      else acc.reverse :: jsSplitRuns p true t []
    else jsSplitRuns p false t (c :: acc)

/-- The separator class `[\s\/\-\|،,؛;:]` of `extractPotentialCharacters`. -/
def isSeparator (c : Char) : Bool := isJsSpace c || sepChars.contains c

/-- `extractPotentialCharacters(text)`: split the extracted content on
separator runs, drop empty pieces (`filter(Boolean)`), wrap each word as a
candidate with confidence 1. -/
def extractPotentialCharacters (text : String) : List PotChar :=
  let content := extractContentBetweenAsterisks text
  if jsTrim content = "" then []
  else
    let words := (jsSplitRuns isSeparator false content.data []).filter (· ≠ [])
    (words.enum.map (fun p =>
      ({ input := String.mk p.2, indices := [p.1], confidence := 1,
         isCharacter := true } : PotChar)))

/-- ASCII lowering of one character, for the `/i` regex flag. -/
def asciiLower (c : Char) : Char :=
  if 'A' ≤ c && c ≤ 'Z' then Char.ofNat (c.toNat + 32) else c

/-- The alternatives of
`/تورنير|مسابقة|بطولة|مباراة|tournament|match|ضد|vs|versus|\/|\|/i`. -/
def tournamentWords : List (List Char) :=
  ["تورنير".data, "مسابقة".data, "بطولة".data, "مباراة".data,
   "tournament".data, "match".data, "ضد".data, "vs".data, "versus".data,
   "/".data, "|".data]

/-- The separator class `[\s\/\-\|،,؛;:vsضد]` of the multi-word test (note it
also contains the letters `v`, `s`, `ض`, `د`). -/
def isTournamentSep (c : Char) : Bool :=
  isSeparator c || c = 'v' || c = 's' || c = 'ض' || c = 'د'

/-- `isTournamentMessage(text)`: a tournament word occurs (case-insensitive),
or the trimmed content splits into at least two pieces. -/
def isTournamentMessage (text : String) : Bool :=
  let content := extractContentBetweenAsterisks text
  if jsTrim content = "" then false
  else
    let lowered := content.data.map asciiLower
    let hasWord := tournamentWords.any (fun w => containsSub w lowered)
    let pieces := jsSplitRuns isTournamentSep false (jsTrimChars content.data) []
    hasWord || pieces.length ≥ 2

/-! ## Message pipeline state (`AnimeCharacterBot.processMessage`)

`AnimeCharacterBot`'s fields mutated by the pipeline: the mapping tables are
only read here (lookup state lives in the resolver embedding above), and
`saveCharacterMappings` is fire-and-forget I/O with no observable state. -/

/-- The mutable pipeline state of `AnimeCharacterBot`. -/
structure AState where
  lastProcessedMessage : String
  tournamentMode : Bool
deriving DecidableEq

/-- `processMessage(message)`: empty / repeated text short-circuits to null
with no state change; no extracted words short-circuits to null; otherwise
the state records the processed text and tournament mode and the result
carries the words. -/
def processMessage (a : AState) (body : String) : Option PResult × AState :=
  if jsTrim body = "" ∨ body = a.lastProcessedMessage then (none, a)
  else
    let learnedCharacters := extractPotentialCharacters body
    if learnedCharacters.isEmpty then (none, a)
    else
      (some { learnedCharacters := learnedCharacters,
              tournamentMode := isTournamentMessage body,
              originalText := body },
       { lastProcessedMessage := body, tournamentMode := isTournamentMessage body })

/-- C4: `processMessage` returns null and leaves the pipeline state unchanged
whenever the incoming text is character-for-character the last successfully
processed text (the check is on the text alone, so it fires even for a
distinct message from a different sender); and a successful processing of any
text re-points the suppression at that text, releasing the previous one. -/
theorem processMessage_suppresses_repeat (a : AState) (body : String) :
    (body = a.lastProcessedMessage → processMessage a body = (none, a)) ∧
    (∀ (r : PResult) (a' : AState), processMessage a body = (some r, a') →
      a'.lastProcessedMessage = body) := by
  constructor
  · intro hrep
    simp [processMessage, hrep]
  · intro r a' h
    simp only [processMessage] at h
    split_ifs at h with h1 h2
    · exact absurd (congrArg Prod.fst h) (by simp)
    · exact absurd (congrArg Prod.fst h) (by simp)
    · have hs := congrArg Prod.snd h
      simp only [Prod.snd] at hs
      rw [← hs]

/-- Concrete instance of C4: a repeat of `"*abc*"` is suppressed with the
state untouched, and successfully processing `"*abc*"` from a fresh state
re-points the suppression at `"*abc*"`. -/
theorem processMessage_suppresses_repeat_witness :
    processMessage ⟨"*abc*", false⟩ "*abc*" = (none, ⟨"*abc*", false⟩) ∧
    AState.lastProcessedMessage
      (processMessage ⟨"", false⟩ "*abc*").2 = "*abc*" := by
  constructor
  · exact (processMessage_suppresses_repeat ⟨"*abc*", false⟩ "*abc*").1 rfl
  · exact (processMessage_suppresses_repeat ⟨"", false⟩ "*abc*").2
      ⟨[⟨"abc", [0], 1, true⟩], false, "*abc*"⟩ ⟨"*abc*", false⟩ (by decide)

/-! ## Session State Machine (`WhatsAppAnimeBot.setupMessageHandler`)

The per-message body of the `messages.upsert` handler of the later plugin
revision, as a transition function.  One call handles one message and returns
the new state, the texts sent immediately (in order), and the correction
texts scheduled on a detached timer.  Clock readings (`Date.now() / 1000`,
stored in `activationTimestamp` and compared against the transport's integer
`messageTimestamp`) are embedded in whole seconds as `Int`; this is exact for
every comparison between message timestamps and coarsens the two wall-clock
comparisons by less than the second that `Date.now()`'s fraction carries,
which none of the verified properties depend on. -/

/-- One entry of `getGroupsList()`. -/
structure GroupInfo where
  id : String
  name : String
  participants : Nat
deriving DecidableEq

/-- One `sock.sendMessage(chatId, { text })` call. -/
structure Outbound where
  chat : String
  text : String
deriving DecidableEq

/-- The mutable fields of `WhatsAppAnimeBot` (plus its `AnimeCharacterBot`).
`processedMessages` is the dedup `Set` in insertion order, oldest first. -/
structure WState where
  isActive : Bool
  selectedGroup : Option String
  activationTimestamp : Int
  lastMessageTimestamp : Int
  processedMessages : List String
  animeBot : AState
deriving DecidableEq

/-- One inbound message.  `content` is
`message.message?.conversation || message.message?.extendedTextMessage?.text`;
the code only ever tests its truthiness, so a missing text is embedded as
`""` (which JavaScript treats identically here). -/
structure Msg where
  remoteJid : String
  participant : Option String
  id : String
  fromMe : Bool
  messageTimestamp : Int
  content : String
deriving DecidableEq

/-- The ambient world for one handled message: the group directory, the
clock, whether `chatModify({clear})` succeeds, and the random draws consumed
by the pipeline. -/
structure Env where
  groups : List GroupInfo
  now : Int
  clearOk : Bool
  mistakeDraw : Bool
  mrand : MistakeRand
  correctDraw : Bool
  delayRand : Nat

/-- `this.ownerNumbers`. -/
def ownerNumbers : List String :=
  ["96176337375", "966584646464", "967771654273", "967739279014"]

/-- `senderNumber.replace('@s.whatsapp.net', '')`: remove the first
occurrence of the needle, if any. -/
def removeFirstSub (needle : List Char) : List Char → List Char
  | [] => []
  | c :: t =>
    if isPrefixChars needle (c :: t) then (c :: t).drop needle.length
    else c :: removeFirstSub needle t

/-- `isOwner(senderNumber)`. -/
def isOwnerNum (sender : String) : Bool :=
  ownerNumbers.contains (String.mk (removeFirstSub "@s.whatsapp.net".data sender.data))

/-- `remoteJid?.split('@')[0]`. -/
def beforeAt (s : String) : String :=
  String.mk (s.data.takeWhile (fun c => !(c = '@')))

/-- `message.key.participant || message.key.remoteJid?.split('@')[0]`
(an empty participant string is falsy and falls through). -/
def senderOf (m : Msg) : String :=
  match m.participant with
  | some p => if p = "" then beforeAt m.remoteJid else p
  | none => beforeAt m.remoteJid

/-- `/^\d+$/.test(s)`. -/
def isDigitsStr (l : List Char) : Bool :=
  !l.isEmpty && l.all (fun c => '0' ≤ c && c ≤ '9')

/-- `parseInt(s)` on an all-digit string. -/
def parseDec (l : List Char) : Nat :=
  l.foldl (fun n c => 10 * n + (c.toNat - 48)) 0

/-- The dedup key
`` `${message.key.remoteJid}-${message.key.id}-${messageTimestamp}` ``. -/
def msgKey (m : Msg) : String :=
  m.remoteJid ++ "-" ++ m.id ++ "-" ++ toString m.messageTimestamp

def noGroupsText : String := "❌ No groups found!"

/-- The group list shown on activation. -/
def groupsListText (groups : List GroupInfo) : String :=
  (groups.enum.foldl
    (fun acc p => acc ++ toString (p.1 + 1) ++ ". " ++ p.2.name ++ " (" ++
      toString p.2.participants ++ " members)\n")
    "📋 **Available Groups:**\n") ++
  "\nReply with the group number to activate the bot in that group."

def deactivatedText : String := "🔴 Bot deactivated successfully!"

def invalidGroupText : String := "❌ Invalid group number!"

def activatedText (g : GroupInfo) : String :=
  "✅ Bot activated in: **" ++ g.name ++ "**\n\nNow the bot will only respond in this group."

def failedClearText (g : GroupInfo) : String :=
  "⚠️ Failed to clear chat in " ++ g.name ++ "."

/-- `getStatus().status`. -/
def statusText (st : WState) : String :=
  if st.isActive then
    "Active" ++ (if st.selectedGroup.isSome then " in selected group" else "") ++
      " - Detecting anime characters"
  else "Inactive - Send .ابدا to activate"

def statusMessageText (st : WState) : String :=
  "🤖 Bot Status: " ++ statusText st

/-- The character-detection tail of the handler: `processMessage`,
`formatResponse`, the adaptive-delay sleep (unobservable here), the direct
send, and the optionally scheduled correction. -/
def runPipeline (st : WState) (chatId msgContent : String) (env : Env) :
    WState × List Outbound × List Outbound :=
  let pr := processMessage st.animeBot msgContent
  let st' := { st with animeBot := pr.2 }
  match pr.1 with
  | none => (st', [], [])
  | some result =>
    match formatResponse result env.mistakeDraw env.mrand with
    | none => (st', [], [])
    | some rd =>
      if rd.text = "" then (st', [], [])
      else
        let outs := [⟨chatId, rd.text⟩]
        if rd.isMistake = true ∧ env.correctDraw = true then
          (st', outs, [⟨chatId, joinSpace (rd.originalCharacters.getD [])⟩])
        else (st', outs, [])

/-- The command / routing chain of the handler body, after the dedup guards
have admitted the message. -/
def dispatch (st : WState) (m : Msg) (env : Env) :
    WState × List Outbound × List Outbound :=
  let chatId := m.remoteJid
  let senderNumber := senderOf m
  let t := jsTrim m.content
  if t = ".a" ∨ t = ".ابدا" then
    if isOwnerNum senderNumber = false then (st, [], [])
    else if env.groups.isEmpty then (st, [⟨chatId, noGroupsText⟩], [])
    else (st, [⟨chatId, groupsListText env.groups⟩], [])
  else if t = ".x" ∨ t = ".وقف" then
    if isOwnerNum senderNumber = false then (st, [], [])
    else ({ st with isActive := false, selectedGroup := none },
      [⟨chatId, deactivatedText⟩], [])
  else if isOwnerNum senderNumber = true ∧ isDigitsStr t.data = true ∧
      st.isActive = false then
    let selectedIndex : Int := (parseDec t.data : Int) - 1
    if 0 ≤ selectedIndex ∧ selectedIndex < (env.groups.length : Int) then
      match env.groups[selectedIndex.toNat]? with
      | some g =>
        let st' := { st with
          selectedGroup := some g.id
          isActive := true
          activationTimestamp := env.now }
        let clearOuts : List Outbound :=
          if env.clearOk then [] else [⟨chatId, failedClearText g⟩]
        (st', clearOuts ++ [⟨chatId, activatedText g⟩], [])
      | none => (st, [⟨chatId, invalidGroupText⟩], [])
    else (st, [⟨chatId, invalidGroupText⟩], [])
  else if t = ".status" ∨ t = ".حالة" then
    (st, [⟨chatId, statusMessageText st⟩], [])
  else if st.isActive = false then (st, [], [])
  else if st.selectedGroup.isSome = true ∧ st.selectedGroup ≠ some chatId then
    (st, [], [])
  else if m.messageTimestamp < st.activationTimestamp then (st, [], [])
  else runPipeline st chatId m.content env

/-- The dedup-window insertion and ordering bookkeeping performed once a
message passes the guards: record the key, bump the low-water mark, evict the
oldest key beyond capacity 200. -/
def gateUpdate (st : WState) (m : Msg) : WState :=
  let pm := st.processedMessages ++ [msgKey m]
  { st with
    processedMessages := if 200 < pm.length then pm.drop 1 else pm,
    lastMessageTimestamp := max st.lastMessageTimestamp m.messageTimestamp }

/-- The whole per-message handler body: skip own / empty messages, skip
messages older than 30 seconds, skip messages older than the last processed
one, skip already-seen keys; otherwise record the message and dispatch. -/
def handleMessage (st : WState) (m : Msg) (env : Env) :
    WState × List Outbound × List Outbound :=
  if m.fromMe = true ∨ m.content = "" then (st, [], [])
  else if 30 < env.now - m.messageTimestamp then (st, [], [])
  else if m.messageTimestamp < st.lastMessageTimestamp then (st, [], [])
  else if msgKey m ∈ st.processedMessages then (st, [], [])
  else dispatch (gateUpdate st m) m env

theorem gateUpdate_processed (st : WState) (m : Msg) :
    (gateUpdate st m).processedMessages =
      (if 200 < (st.processedMessages ++ [msgKey m]).length
       then (st.processedMessages ++ [msgKey m]).drop 1
       else st.processedMessages ++ [msgKey m]) := rfl

theorem gateUpdate_lmt (st : WState) (m : Msg) :
    (gateUpdate st m).lastMessageTimestamp =
      max st.lastMessageTimestamp m.messageTimestamp := rfl

theorem gateUpdate_mem (st : WState) (m : Msg) :
    msgKey m ∈ (gateUpdate st m).processedMessages := by
  rw [gateUpdate_processed]
  split_ifs with h
  · rw [List.drop_append_of_le_length (by
      simp only [List.length_append, List.length_singleton] at h
      omega)]
    exact List.mem_append_right _ (List.mem_singleton.mpr rfl)
  · exact List.mem_append_right _ (List.mem_singleton.mpr rfl)

theorem runPipeline_state (st : WState) (chatId content : String) (env : Env) :
    (runPipeline st chatId content env).1 =
      { st with animeBot := (processMessage st.animeBot content).2 } := by
  simp only [runPipeline]
  split
  · rfl
  · split
    · rfl
    · split_ifs <;> rfl

theorem dispatch_window (st : WState) (m : Msg) (env : Env) :
    (dispatch st m env).1.processedMessages = st.processedMessages ∧
    (dispatch st m env).1.lastMessageTimestamp = st.lastMessageTimestamp := by
  simp only [dispatch]
  split_ifs <;>
    first
      | exact ⟨rfl, rfl⟩
      | (split <;> exact ⟨rfl, rfl⟩)
      | (rw [runPipeline_state]; exact ⟨rfl, rfl⟩)

theorem handleMessage_pass (st : WState) (m : Msg) (env : Env)
    (h1 : ¬(m.fromMe = true ∨ m.content = ""))
    (h2 : ¬(30 < env.now - m.messageTimestamp))
    (h3 : ¬(m.messageTimestamp < st.lastMessageTimestamp))
    (h4 : msgKey m ∉ st.processedMessages) :
    handleMessage st m env = dispatch (gateUpdate st m) m env := by
  simp [handleMessage, h1, h2, h3, h4]

theorem handleMessage_cases (st : WState) (m : Msg) (env : Env) :
    handleMessage st m env = (st, [], []) ∨
    (handleMessage st m env = dispatch (gateUpdate st m) m env ∧
      msgKey m ∉ st.processedMessages ∧
      ¬(m.fromMe = true ∨ m.content = "") ∧
      ¬(m.messageTimestamp < st.lastMessageTimestamp)) := by
  simp only [handleMessage]
  split_ifs with h1 h2 h3 h4
  · exact Or.inl rfl
  · exact Or.inl rfl
  · exact Or.inl rfl
  · exact Or.inl rfl
  · exact Or.inr ⟨rfl, h4, h1, h3⟩

/-- C3: a message whose first delivery produced an outbound response is inert
when redelivered — the state is untouched and nothing is sent or scheduled,
so the two deliveries produce exactly the one response of the first; the
dedup window never exceeds 200 remembered keys after handling any message;
and when a new key enters a full window of 200 the oldest remembered key is
the one evicted (FIFO). -/
theorem dedup_window_replay (st : WState) (m : Msg) :
    (∀ (e₁ e₂ : Env) (st₁ : WState) (o₁ s₁ : List Outbound),
        handleMessage st m e₁ = (st₁, o₁, s₁) → o₁ ≠ [] →
        handleMessage st₁ m e₂ = (st₁, [], [])) ∧
    (∀ env : Env, st.processedMessages.length ≤ 200 →
        (handleMessage st m env).1.processedMessages.length ≤ 200) ∧
    (∀ env : Env,
        ¬(m.fromMe = true ∨ m.content = "") →
        ¬(30 < env.now - m.messageTimestamp) →
        ¬(m.messageTimestamp < st.lastMessageTimestamp) →
        msgKey m ∉ st.processedMessages →
        st.processedMessages.length = 200 →
        (handleMessage st m env).1.processedMessages =
          st.processedMessages.drop 1 ++ [msgKey m]) := by
  refine ⟨?_, ?_, ?_⟩
  · intro e₁ e₂ st₁ o₁ s₁ hrun hne
    rcases handleMessage_cases st m e₁ with hid | ⟨hdis, _, hcontent, hord1⟩
    · rw [hid] at hrun
      have ho : o₁ = [] := by
        have := congrArg (fun p => p.2.1) hrun
        simpa using this.symm
      exact absurd ho hne
    · rw [hdis] at hrun
      have hst₁ : st₁ = (dispatch (gateUpdate st m) m e₁).1 :=
        (congrArg Prod.fst hrun).symm
      have hwin := dispatch_window (gateUpdate st m) m e₁
      have hmem : msgKey m ∈ st₁.processedMessages := by
        rw [hst₁, hwin.1]
        exact gateUpdate_mem st m
      have hlmt : st₁.lastMessageTimestamp =
          max st.lastMessageTimestamp m.messageTimestamp := by
        rw [hst₁, hwin.2, gateUpdate_lmt]
      simp only [handleMessage]
      rw [if_neg hcontent]
      by_cases hstale : 30 < e₂.now - m.messageTimestamp
      · rw [if_pos hstale]
      · rw [if_neg hstale]
        have horder : ¬(m.messageTimestamp < st₁.lastMessageTimestamp) := by
          rw [hlmt, max_eq_right (not_lt.mp hord1)]
          exact lt_irrefl _
        rw [if_neg horder, if_pos hmem]
  · intro env hlen
    rcases handleMessage_cases st m env with hid | ⟨hdis, _, _, _⟩
    · rw [hid]
      exact hlen
    · rw [hdis, (dispatch_window _ _ _).1, gateUpdate_processed]
      split_ifs with h
      · simp only [List.length_drop, List.length_append, List.length_singleton]
        omega
      · simp only [List.length_append, List.length_singleton] at h ⊢
        omega
  · intro env h1 h2 h3 h4 hfull
    rw [handleMessage_pass st m env h1 h2 h3 h4, (dispatch_window _ _ _).1,
      gateUpdate_processed]
    rw [if_pos (by simp only [List.length_append, List.length_singleton, hfull]; omega)]
    exact List.drop_append_of_le_length (by rw [hfull]; omega)

set_option maxRecDepth 4000 in
/-- Concrete instance of C3: a bound, active session answering `"*Goku*"`
replies once; redelivering the identical message changes nothing and sends
nothing; a window of 200 remembered keys stays at 200 and evicts its oldest
key when the new message is recorded. -/
theorem dedup_window_replay_witness :
    (handleMessage
        ((handleMessage ⟨true, some "g@g.us", 0, 0, [], ⟨"", false⟩⟩
            ⟨"g@g.us", some "5@s.whatsapp.net", "i1", false, 10, "*Goku*"⟩
            ⟨[], 10, true, false, ⟨false, 0, 0, 0, 2, id⟩, false, 0⟩).1)
        ⟨"g@g.us", some "5@s.whatsapp.net", "i1", false, 10, "*Goku*"⟩
        ⟨[], 11, true, false, ⟨false, 0, 0, 0, 2, id⟩, false, 0⟩ =
      ((handleMessage ⟨true, some "g@g.us", 0, 0, [], ⟨"", false⟩⟩
          ⟨"g@g.us", some "5@s.whatsapp.net", "i1", false, 10, "*Goku*"⟩
          ⟨[], 10, true, false, ⟨false, 0, 0, 0, 2, id⟩, false, 0⟩).1, [], [])) ∧
    (handleMessage ⟨true, some "g@g.us", 0, 0, [], ⟨"", false⟩⟩
        ⟨"g@g.us", some "5@s.whatsapp.net", "i1", false, 10, "*Goku*"⟩
        ⟨[], 10, true, false, ⟨false, 0, 0, 0, 2, id⟩, false, 0⟩).1.processedMessages.length ≤ 200 ∧
    (handleMessage ⟨false, none, 0, 0, List.replicate 200 "x", ⟨"", false⟩⟩
        ⟨"c@g.us", some "5@s.whatsapp.net", "i9", false, 10, "hello"⟩
        ⟨[], 10, true, false, ⟨false, 0, 0, 0, 2, id⟩, false, 0⟩).1.processedMessages =
      (List.replicate 200 "x").drop 1 ++ ["c@g.us-i9-10"] := by
  refine ⟨?_, ?_, ?_⟩
  · exact (dedup_window_replay ⟨true, some "g@g.us", 0, 0, [], ⟨"", false⟩⟩
      ⟨"g@g.us", some "5@s.whatsapp.net", "i1", false, 10, "*Goku*"⟩).1
      ⟨[], 10, true, false, ⟨false, 0, 0, 0, 2, id⟩, false, 0⟩
      ⟨[], 11, true, false, ⟨false, 0, 0, 0, 2, id⟩, false, 0⟩
      _ _ _ rfl (by decide)
  · exact (dedup_window_replay ⟨true, some "g@g.us", 0, 0, [], ⟨"", false⟩⟩
      ⟨"g@g.us", some "5@s.whatsapp.net", "i1", false, 10, "*Goku*"⟩).2.1
      ⟨[], 10, true, false, ⟨false, 0, 0, 0, 2, id⟩, false, 0⟩ (by decide)
  · exact (dedup_window_replay ⟨false, none, 0, 0, List.replicate 200 "x", ⟨"", false⟩⟩
      ⟨"c@g.us", some "5@s.whatsapp.net", "i9", false, 10, "hello"⟩).2.2
      ⟨[], 10, true, false, ⟨false, 0, 0, 0, 2, id⟩, false, 0⟩
      (by decide) (by decide) (by decide) (by decide) (by decide)

/-- C1: an activation command from a sender outside the owner allow-list is
silently ignored — nothing is sent or scheduled and the session fields
`isActive` / `selectedGroup` keep their values; an owner sending `.a` while
the bot is inactive leaves it inactive (the command only lists groups), and
the owner's following reply `"2"` binds `selectedGroup` to the second listed
group and flips `isActive` to true. -/
theorem session_owner_activation :
    (∀ (st : WState) (m : Msg) (env : Env),
        (jsTrim m.content = ".a" ∨ jsTrim m.content = ".ابدا") →
        isOwnerNum (senderOf m) = false →
        (handleMessage st m env).2.1 = [] ∧ (handleMessage st m env).2.2 = [] ∧
        (handleMessage st m env).1.isActive = st.isActive ∧
        (handleMessage st m env).1.selectedGroup = st.selectedGroup) ∧
    (∀ (st : WState) (m₁ m₂ : Msg) (e₁ e₂ : Env) (g : GroupInfo),
        st.isActive = false →
        jsTrim m₁.content = ".a" →
        isOwnerNum (senderOf m₁) = true →
        jsTrim m₂.content = "2" →
        isOwnerNum (senderOf m₂) = true →
        e₂.groups[1]? = some g →
        ¬(m₁.fromMe = true ∨ m₁.content = "") →
        ¬(30 < e₁.now - m₁.messageTimestamp) →
        ¬(m₁.messageTimestamp < st.lastMessageTimestamp) →
        msgKey m₁ ∉ st.processedMessages →
        ¬(m₂.fromMe = true ∨ m₂.content = "") →
        ¬(30 < e₂.now - m₂.messageTimestamp) →
        ¬(m₂.messageTimestamp < m₁.messageTimestamp) →
        ¬(m₂.messageTimestamp < st.lastMessageTimestamp) →
        msgKey m₂ ∉ st.processedMessages →
        msgKey m₂ ≠ msgKey m₁ →
        (handleMessage st m₁ e₁).1.isActive = false ∧
        (handleMessage (handleMessage st m₁ e₁).1 m₂ e₂).1.isActive = true ∧
        (handleMessage (handleMessage st m₁ e₁).1 m₂ e₂).1.selectedGroup =
          some g.id) := by
  constructor
  · intro st m env hcmd how
    rcases handleMessage_cases st m env with hid | ⟨hdis, _, _, _⟩
    · rw [hid]
      exact ⟨rfl, rfl, rfl, rfl⟩
    · rw [hdis]
      simp only [dispatch]
      rw [if_pos hcmd, if_pos how]
      exact ⟨rfl, rfl, rfl, rfl⟩
  · intro st m₁ m₂ e₁ e₂ g hact h1c h1o h2c h2o hg hf1 hs1 ho1 hd1 hf2 hs2
      ho21 ho22 hd2 hdne
    have e1run : handleMessage st m₁ e₁ = dispatch (gateUpdate st m₁) m₁ e₁ :=
      handleMessage_pass st m₁ e₁ hf1 hs1 ho1 hd1
    have hstate1 : (dispatch (gateUpdate st m₁) m₁ e₁).1 = gateUpdate st m₁ := by
      simp only [dispatch]
      rw [if_pos (Or.inl h1c), h1o]
      rw [if_neg (by simp)]
      split_ifs <;> rfl
    have hst₁ : (handleMessage st m₁ e₁).1 = gateUpdate st m₁ := by
      rw [e1run, hstate1]
    refine ⟨by rw [hst₁]; exact hact, ?_⟩
    have h3' : ¬(m₂.messageTimestamp < (gateUpdate st m₁).lastMessageTimestamp) := by
      rw [gateUpdate_lmt]
      intro hcon
      rcases lt_max_iff.mp hcon with h | h
      · exact ho22 h
      · exact ho21 h
    have h4' : msgKey m₂ ∉ (gateUpdate st m₁).processedMessages := by
      rw [gateUpdate_processed]
      intro hmem
      split_ifs at hmem with hsp
      · rcases List.mem_append.mp (List.mem_of_mem_drop hmem) with h | h
        · exact hd2 h
        · exact hdne (List.mem_singleton.mp h)
      · rcases List.mem_append.mp hmem with h | h
        · exact hd2 h
        · exact hdne (List.mem_singleton.mp h)
    have e2run : handleMessage (gateUpdate st m₁) m₂ e₂ =
        dispatch (gateUpdate (gateUpdate st m₁) m₂) m₂ e₂ :=
      handleMessage_pass _ m₂ e₂ hf2 hs2 h3' h4'
    have hact₂ : (gateUpdate (gateUpdate st m₁) m₂).isActive = false := hact
    have hlen1 : 1 < e₂.groups.length := by
      by_contra hle
      rw [List.getElem?_eq_none (by omega)] at hg
      exact Option.noConfusion hg
    have hp2 : (parseDec ("2" : String).data : Int) - 1 = 1 := by decide
    have hres : (dispatch (gateUpdate (gateUpdate st m₁) m₂) m₂ e₂).1.isActive = true ∧
        (dispatch (gateUpdate (gateUpdate st m₁) m₂) m₂ e₂).1.selectedGroup =
          some g.id := by
      simp only [dispatch]
      rw [h2c]
      rw [if_neg (by decide), if_neg (by decide)]
      rw [if_pos ⟨h2o, by decide, hact₂⟩]
      rw [hp2]
      rw [if_pos ⟨by decide, by exact_mod_cast hlen1⟩]
      rw [show ((1 : Int).toNat) = 1 from rfl, hg]
      exact ⟨rfl, rfl⟩
    rw [hst₁, e2run]
    exact hres

set_option maxRecDepth 4000 in
/-- Concrete instance of C1: a non-owner's `.a` is silently ignored with the
session fields intact, and an owner's `.a` followed by `"2"` binds the second
of two listed groups and activates the bot. -/
theorem session_owner_activation_witness :
    ((handleMessage ⟨false, none, 0, 0, [], ⟨"", false⟩⟩
        ⟨"u@s.whatsapp.net", some "123@s.whatsapp.net", "iN", false, 10, ".a"⟩
        ⟨[⟨"g1@g.us", "G1", 3⟩, ⟨"g2@g.us", "G2", 5⟩], 10, true, false,
          ⟨false, 0, 0, 0, 2, id⟩, false, 0⟩).2.1 = [] ∧
      (handleMessage ⟨false, none, 0, 0, [], ⟨"", false⟩⟩
        ⟨"u@s.whatsapp.net", some "123@s.whatsapp.net", "iN", false, 10, ".a"⟩
        ⟨[⟨"g1@g.us", "G1", 3⟩, ⟨"g2@g.us", "G2", 5⟩], 10, true, false,
          ⟨false, 0, 0, 0, 2, id⟩, false, 0⟩).2.2 = [] ∧
      (handleMessage ⟨false, none, 0, 0, [], ⟨"", false⟩⟩
        ⟨"u@s.whatsapp.net", some "123@s.whatsapp.net", "iN", false, 10, ".a"⟩
        ⟨[⟨"g1@g.us", "G1", 3⟩, ⟨"g2@g.us", "G2", 5⟩], 10, true, false,
          ⟨false, 0, 0, 0, 2, id⟩, false, 0⟩).1.isActive = false ∧
      (handleMessage ⟨false, none, 0, 0, [], ⟨"", false⟩⟩
        ⟨"u@s.whatsapp.net", some "123@s.whatsapp.net", "iN", false, 10, ".a"⟩
        ⟨[⟨"g1@g.us", "G1", 3⟩, ⟨"g2@g.us", "G2", 5⟩], 10, true, false,
          ⟨false, 0, 0, 0, 2, id⟩, false, 0⟩).1.selectedGroup = none) ∧
    ((handleMessage
        (handleMessage ⟨false, none, 0, 0, [], ⟨"", false⟩⟩
          ⟨"o@s.whatsapp.net", some "96176337375@s.whatsapp.net", "iA", false, 10, ".a"⟩
          ⟨[⟨"g1@g.us", "G1", 3⟩, ⟨"g2@g.us", "G2", 5⟩], 10, true, false,
            ⟨false, 0, 0, 0, 2, id⟩, false, 0⟩).1
        ⟨"o@s.whatsapp.net", some "96176337375@s.whatsapp.net", "i2", false, 11, "2"⟩
        ⟨[⟨"g1@g.us", "G1", 3⟩, ⟨"g2@g.us", "G2", 5⟩], 11, true, false,
          ⟨false, 0, 0, 0, 2, id⟩, false, 0⟩).1.isActive = true ∧
      (handleMessage
        (handleMessage ⟨false, none, 0, 0, [], ⟨"", false⟩⟩
          ⟨"o@s.whatsapp.net", some "96176337375@s.whatsapp.net", "iA", false, 10, ".a"⟩
          ⟨[⟨"g1@g.us", "G1", 3⟩, ⟨"g2@g.us", "G2", 5⟩], 10, true, false,
            ⟨false, 0, 0, 0, 2, id⟩, false, 0⟩).1
        ⟨"o@s.whatsapp.net", some "96176337375@s.whatsapp.net", "i2", false, 11, "2"⟩
        ⟨[⟨"g1@g.us", "G1", 3⟩, ⟨"g2@g.us", "G2", 5⟩], 11, true, false,
          ⟨false, 0, 0, 0, 2, id⟩, false, 0⟩).1.selectedGroup = some "g2@g.us") := by
  constructor
  · have h := session_owner_activation.1 ⟨false, none, 0, 0, [], ⟨"", false⟩⟩
      ⟨"u@s.whatsapp.net", some "123@s.whatsapp.net", "iN", false, 10, ".a"⟩
      ⟨[⟨"g1@g.us", "G1", 3⟩, ⟨"g2@g.us", "G2", 5⟩], 10, true, false,
        ⟨false, 0, 0, 0, 2, id⟩, false, 0⟩
      (Or.inl (by decide)) (by decide)
    exact h
  · have h := session_owner_activation.2 ⟨false, none, 0, 0, [], ⟨"", false⟩⟩
      ⟨"o@s.whatsapp.net", some "96176337375@s.whatsapp.net", "iA", false, 10, ".a"⟩
      ⟨"o@s.whatsapp.net", some "96176337375@s.whatsapp.net", "i2", false, 11, "2"⟩
      ⟨[⟨"g1@g.us", "G1", 3⟩, ⟨"g2@g.us", "G2", 5⟩], 10, true, false,
        ⟨false, 0, 0, 0, 2, id⟩, false, 0⟩
      ⟨[⟨"g1@g.us", "G1", 3⟩, ⟨"g2@g.us", "G2", 5⟩], 11, true, false,
        ⟨false, 0, 0, 0, 2, id⟩, false, 0⟩
      ⟨"g2@g.us", "G2", 5⟩
      rfl (by decide) (by decide) (by decide) (by decide) rfl
      (by decide) (by decide) (by decide) (by decide)
      (by decide) (by decide) (by decide) (by decide) (by decide) (by decide)
    exact ⟨h.2.1, h.2.2⟩

/-- C2: while the session is active and bound, a non-command message in the
bound group whose timestamp is strictly below the recorded
`activationTimestamp` is dropped before the detection pipeline: nothing is
sent, nothing is scheduled, and the pipeline state (`lastProcessedMessage`,
`tournamentMode`) is untouched. -/
theorem activation_low_water_mark (st : WState) (m : Msg) (env : Env)
    (gid : String)
    (hact : st.isActive = true)
    (hgrp : st.selectedGroup = some gid)
    (hchat : m.remoteJid = gid)
    (hnc : jsTrim m.content ∉
      ([".a", ".ابدا", ".x", ".وقف", ".status", ".حالة"] : List String))
    (hts : m.messageTimestamp < st.activationTimestamp) :
    (handleMessage st m env).2.1 = [] ∧ (handleMessage st m env).2.2 = [] ∧
    (handleMessage st m env).1.animeBot = st.animeBot := by
  rcases handleMessage_cases st m env with hid | ⟨hdis, _, _, _⟩
  · rw [hid]
    exact ⟨rfl, rfl, rfl⟩
  · rw [hdis]
    simp only [dispatch]
    have h1 : ¬(jsTrim m.content = ".a" ∨ jsTrim m.content = ".ابدا") := by
      intro h
      rcases h with h | h <;> exact hnc (by simp [h])
    have h2 : ¬(jsTrim m.content = ".x" ∨ jsTrim m.content = ".وقف") := by
      intro h
      rcases h with h | h <;> exact hnc (by simp [h])
    have h3 : ¬(isOwnerNum (senderOf m) = true ∧
        isDigitsStr (jsTrim m.content).data = true ∧
        (gateUpdate st m).isActive = false) := by
      intro h
      have hcon : st.isActive = false := h.2.2
      rw [hact] at hcon
      exact Bool.noConfusion hcon
    have h4 : ¬(jsTrim m.content = ".status" ∨ jsTrim m.content = ".حالة") := by
      intro h
      rcases h with h | h <;> exact hnc (by simp [h])
    have h5 : ¬((gateUpdate st m).isActive = false) := by
      intro h
      have hcon : st.isActive = false := h
      rw [hact] at hcon
      exact Bool.noConfusion hcon
    have h6 : ¬((gateUpdate st m).selectedGroup.isSome = true ∧
        (gateUpdate st m).selectedGroup ≠ some m.remoteJid) := by
      intro h
      apply h.2
      show st.selectedGroup = some m.remoteJid
      rw [hgrp, hchat]
    have h7 : m.messageTimestamp < (gateUpdate st m).activationTimestamp := hts
    rw [if_neg h1, if_neg h2, if_neg h3, if_neg h4, if_neg h5, if_neg h6,
      if_pos h7]
    exact ⟨rfl, rfl, rfl⟩

/-- Concrete instance of C2: with activation stamped at 100, a `"*Goku*"`
message timestamped 50 in the bound group produces no output and leaves the
pipeline state untouched. -/
theorem activation_low_water_mark_witness :
    (handleMessage ⟨true, some "g@g.us", 100, 0, [], ⟨"", false⟩⟩
        ⟨"g@g.us", some "5@s.whatsapp.net", "i1", false, 50, "*Goku*"⟩
        ⟨[], 50, true, false, ⟨false, 0, 0, 0, 2, id⟩, false, 0⟩).2.1 = [] ∧
    (handleMessage ⟨true, some "g@g.us", 100, 0, [], ⟨"", false⟩⟩
        ⟨"g@g.us", some "5@s.whatsapp.net", "i1", false, 50, "*Goku*"⟩
        ⟨[], 50, true, false, ⟨false, 0, 0, 0, 2, id⟩, false, 0⟩).2.2 = [] ∧
    (handleMessage ⟨true, some "g@g.us", 100, 0, [], ⟨"", false⟩⟩
        ⟨"g@g.us", some "5@s.whatsapp.net", "i1", false, 50, "*Goku*"⟩
        ⟨[], 50, true, false, ⟨false, 0, 0, 0, 2, id⟩, false, 0⟩).1.animeBot =
      AState.mk "" false :=
  activation_low_water_mark ⟨true, some "g@g.us", 100, 0, [], ⟨"", false⟩⟩
    ⟨"g@g.us", some "5@s.whatsapp.net", "i1", false, 50, "*Goku*"⟩
    ⟨[], 50, true, false, ⟨false, 0, 0, 0, 2, id⟩, false, 0⟩
    "g@g.us" rfl rfl rfl (by decide) (by decide)
